import Mathlib

/-!
Verification of the query-compilation core of `maestral/database/query.py`.

The predicate classes (`AllQuery`, `MatchQuery`, `PathTreeQuery`, `AndQuery`,
`OrQuery`, `NotQuery`) are embedded as a closed inductive type; the `clause()`
method of each class becomes one arm of a recursive `clause` function that
returns the SQL clause text together with the ordered list of substitution
arguments, exactly as the Python code builds them.
-/

namespace MaestralQuery

/-- The byte value of the POSIX path separator, the slash. -/
def sepByte : Nat := 47

/-- The path separator as a character. -/
def sepChar : Char := '/'

/-- UTF-8 encoding of a single character as a list of byte values.
This models how CPython encodes one character of a `str` into `bytes`
(the arithmetic form of the usual bit-level UTF-8 encoder: the bounds on
`n` make the added tag bits disjoint from the payload bits). -/
def utf8Bytes (c : Char) : List Nat :=
  if c.toNat < 128 then [c.toNat]
  else if c.toNat < 2048 then [192 + c.toNat / 64, 128 + c.toNat % 64]
  else if c.toNat < 65536 then
    [224 + c.toNat / 4096, 128 + (c.toNat / 64) % 64, 128 + c.toNat % 64]
  else
    [240 + c.toNat / 262144, 128 + (c.toNat / 4096) % 64, 128 + (c.toNat / 64) % 64,
     128 + c.toNat % 64]

/-- Model of `os.fsencode` on a POSIX system: the UTF-8 encoding of the
path string as a byte sequence. -/
def fsencode (s : String) : List Nat := s.data.flatMap utf8Bytes

/-- Model of `os.path.join(path, b"")` on a POSIX system: appends one
separator byte unless `path` is empty or already ends with the separator. -/
def osPathJoinEmpty (path : List Nat) : List Nat :=
  if path = [] ∨ path.getLast? = some sepByte then path else path ++ [sepByte]

/-- Modelled from the spec: the storage kinds of the column type descriptors
owned by the metadata registry (`database/types.py` is not part of the core
sources); §3 specifies `storage_kind: enum{Path, Scalar, ...}`, where `Path`
corresponds to the `SqlPath` type checked by `PathTreeQuery.__init__`. -/
inductive StorageKind
  | path
  | scalar
  deriving DecidableEq, Repr

/-- SQL-level (storage) values that can be bound to a `?` placeholder:
`ColumnValueType` of `database/types.py`. -/
inductive SqlValue
  | int (n : Int)
  | text (s : String)
  | blob (b : List Nat)
  | null
  deriving DecidableEq, Repr

/-- Python-level (domain) values held by a `MatchQuery` before conversion. -/
inductive PyValue
  | int (n : Int)
  | str (s : String)
  | bytes (b : List Nat)
  | none
  deriving DecidableEq, Repr

/-- Modelled from the spec: the column descriptor consumed by the query
system (`database/orm.py` is not part of the core sources); §3/§6 specify a
`name`, a `storage_kind`, and a pure `to_storage` conversion, which is the
`py_to_sql` method used by `MatchQuery.clause`. -/
structure Column where
  name : String
  kind : StorageKind
  py_to_sql : PyValue → SqlValue

/-- The predicate tree: one constructor per concrete `Query` subclass.
`PathTreeQuery` stores the two byte strings computed by its `__init__`
(`file_blob` and `dir_blob`); `AndQuery`/`OrQuery` store the ordered
`subqueries` tuple of `CollectionQuery`. -/
inductive Query
  | AllQuery : Query
  | MatchQuery (column : Column) (value : PyValue) : Query
  | PathTreeQuery (column : Column) (file_blob dir_blob : List Nat) : Query
  | AndQuery (subqueries : List Query) : Query
  | OrQuery (subqueries : List Query) : Query
  | NotQuery (subquery : Query) : Query

/-- Constructor of `PathTreeQuery`: raises `ValueError` unless the column
type is `SqlPath`; otherwise stores `file_blob = os.fsencode(path)` and
`dir_blob = os.path.join(file_blob, b"")`. -/
def mkPathTreeQuery (column : Column) (path : String) : Except String Query :=
  if column.kind ≠ StorageKind.path then
    Except.error "Only accepts columns with type SqlPath"
  else
    Except.ok (Query.PathTreeQuery column (fsencode path) (osPathJoinEmpty (fsencode path)))

/-- Model of Python `str.join`: `sep.join(parts)`. -/
def joinParts (sep : String) : List String → String
  | [] => ""
  | [p] => p
  | p :: ps => p ++ sep ++ joinParts sep ps

mutual

/-- The `clause()` method of each `Query` subclass: the SQL clause text and
the ordered argument list. -/
def clause : Query → String × List SqlValue
  | Query.AllQuery => ("TRUE", [])
  | Query.MatchQuery column value =>
      (column.name ++ " = ?", [column.py_to_sql value])
  | Query.PathTreeQuery column file_blob dir_blob =>
      ("(" ++ column.name ++ " = ? OR substr(" ++ column.name ++ ", 1, ?) = ?)",
       [SqlValue.blob file_blob, SqlValue.int (Int.ofNat dir_blob.length),
        SqlValue.blob dir_blob])
  | Query.AndQuery subqueries =>
      (joinParts " AND " (clauseParts subqueries), clauseArgs subqueries)
  | Query.OrQuery subqueries =>
      (joinParts " OR " (clauseParts subqueries), clauseArgs subqueries)
  | Query.NotQuery subquery =>
      let p := clause subquery
      if p.1 = "" then p else ("not (" ++ p.1 ++ ")", p.2)

/-- The `clause_parts` list built by `CollectionQuery.clause_with_joiner`:
each subquery clause wrapped in parentheses, in order. -/
def clauseParts : List Query → List String
  | [] => []
  | q :: qs => ("(" ++ (clause q).1 ++ ")") :: clauseParts qs

/-- The `subvals` list built by `CollectionQuery.clause_with_joiner`: the
concatenation of the subquery argument lists, in order. -/
def clauseArgs : List Query → List SqlValue
  | [] => []
  | q :: qs => (clause q).2 ++ clauseArgs qs

end

/-- Method `clause_with_joiner` of `CollectionQuery`: join the parenthesized
subquery clauses with the joiner padded by spaces, concatenating the
arguments. -/
def clause_with_joiner (joiner : String) (subqueries : List Query) :
    String × List SqlValue :=
  (joinParts (" " ++ joiner ++ " ") (clauseParts subqueries), clauseArgs subqueries)

mutual

/-- A structural deep copy of a predicate tree, used to express that
compilation depends only on the (immutable) structure of the tree. -/
def copyQuery : Query → Query
  | Query.AllQuery => Query.AllQuery
  | Query.MatchQuery column value => Query.MatchQuery column value
  | Query.PathTreeQuery column file_blob dir_blob =>
      Query.PathTreeQuery column file_blob dir_blob
  | Query.AndQuery subqueries => Query.AndQuery (copyList subqueries)
  | Query.OrQuery subqueries => Query.OrQuery (copyList subqueries)
  | Query.NotQuery subquery => Query.NotQuery (copyQuery subquery)

/-- Deep copy of a list of predicate trees. -/
def copyList : List Query → List Query
  | [] => []
  | q :: qs => copyQuery q :: copyList qs

end

/-- The number of placeholder characters (question marks) in a clause. -/
def countQM (s : String) : Nat := s.data.count '?'

mutual

/-- A predicate tree is well-named when no column name occurring in it
contains a placeholder character; real SQL column identifiers never do. -/
def wellNamed : Query → Bool
  | Query.AllQuery => true
  | Query.MatchQuery column _ => countQM column.name == 0
  | Query.PathTreeQuery column _ _ => countQM column.name == 0
  | Query.AndQuery subqueries => wellNamedList subqueries
  | Query.OrQuery subqueries => wellNamedList subqueries
  | Query.NotQuery subquery => wellNamed subquery

/-- All members of a list of predicate trees are well-named. -/
def wellNamedList : List Query → Bool
  | [] => true
  | q :: qs => wellNamed q && wellNamedList qs

end

/-- The default conversion from Python values to storage values, standing in
for the `py_to_sql` of the scalar column types of `database/types.py`. -/
def pyToSqlDefault : PyValue → SqlValue
  | PyValue.int n => SqlValue.int n
  | PyValue.str s => SqlValue.text s
  | PyValue.bytes b => SqlValue.blob b
  | PyValue.none => SqlValue.null

/-- A column named `path` whose type is the path type. -/
def pathColumn : Column :=
  { name := "path", kind := StorageKind.path, py_to_sql := pyToSqlDefault }

/-- A column named `size` whose type is a scalar (non-path) type. -/
def sizeColumn : Column :=
  { name := "size", kind := StorageKind.scalar, py_to_sql := pyToSqlDefault }

/-- The `PathTreeQuery(path, "/sync/docs")` node of the end-to-end scenario,
as built by a successful construction. -/
def syncDocsQuery : Query :=
  Query.PathTreeQuery pathColumn (fsencode "/sync/docs")
    (osPathJoinEmpty (fsencode "/sync/docs"))

/-- The end-to-end scenario predicate
`AndQuery(PathTreeQuery(path, "/sync/docs"), NotQuery(MatchQuery(size, 0)))`. -/
def scenarioQuery : Query :=
  Query.AndQuery
    [syncDocsQuery, Query.NotQuery (Query.MatchQuery sizeColumn (PyValue.int 0))]

/-! ## Helper lemmas -/

theorem syncDocs_construction :
    mkPathTreeQuery pathColumn "/sync/docs" = Except.ok syncDocsQuery := rfl

theorem countQM_append (a b : String) :
    countQM (a ++ b) = countQM a + countQM b := by
  simp [countQM, String.data_append, List.count_append]

theorem countQM_joinParts (sep : String) (hsep : countQM sep = 0) :
    ∀ parts : List String,
      countQM (joinParts sep parts) = (parts.map countQM).sum
  | [] => by simp [joinParts, countQM]
  | [p] => by simp [joinParts]
  | p :: p2 :: ps => by
    have ih := countQM_joinParts sep hsep (p2 :: ps)
    simp only [joinParts, countQM_append, ih, List.map_cons, List.sum_cons, hsep]
    omega

theorem joinParts_length (sep : String) :
    ∀ parts : List String,
      (joinParts sep parts).length
        = (parts.map String.length).sum + sep.length * (parts.length - 1)
  | [] => by simp [joinParts]
  | [p] => by simp [joinParts]
  | p :: p2 :: ps => by
    have ih := joinParts_length sep (p2 :: ps)
    simp only [joinParts, String.length_append, List.map_cons, List.sum_cons,
      List.length_cons, Nat.add_sub_cancel, Nat.mul_add, Nat.mul_one] at ih ⊢
    omega

theorem clauseParts_eq_map :
    ∀ l : List Query, clauseParts l = l.map (fun q => "(" ++ (clause q).1 ++ ")")
  | [] => rfl
  | q :: qs => by simp [clauseParts, clauseParts_eq_map qs]

theorem clauseArgs_eq_flatten :
    ∀ l : List Query, clauseArgs l = (l.map (fun q => (clause q).2)).flatten
  | [] => rfl
  | q :: qs => by simp [clauseArgs, clauseArgs_eq_flatten qs]

mutual

theorem copyQuery_eq : ∀ q : Query, copyQuery q = q
  | Query.AllQuery => rfl
  | Query.MatchQuery _ _ => rfl
  | Query.PathTreeQuery _ _ _ => rfl
  | Query.AndQuery subs => by rw [copyQuery, copyList_eq subs]
  | Query.OrQuery subs => by rw [copyQuery, copyList_eq subs]
  | Query.NotQuery sub => by rw [copyQuery, copyQuery_eq sub]

theorem copyList_eq : ∀ l : List Query, copyList l = l
  | [] => rfl
  | q :: qs => by rw [copyList, copyQuery_eq q, copyList_eq qs]

end

theorem clause_not (sub : Query) :
    clause (Query.NotQuery sub)
      = if (clause sub).1 = "" then clause sub
        else ("not (" ++ (clause sub).1 ++ ")", (clause sub).2) := rfl

theorem clause_and (subqueries : List Query) :
    clause (Query.AndQuery subqueries)
      = (joinParts " AND " (clauseParts subqueries), clauseArgs subqueries) := rfl

theorem clause_or (subqueries : List Query) :
    clause (Query.OrQuery subqueries)
      = (joinParts " OR " (clauseParts subqueries), clauseArgs subqueries) := rfl

theorem paren_length (s : String) : ("(" ++ s ++ ")").length = s.length + 2 := by
  rw [String.length_append, String.length_append]
  have h1 : "(".length = 1 := rfl
  have h2 : ")".length = 1 := rfl
  omega

theorem map_paren_length (l : List Query) :
    (l.map (fun q => "(" ++ (clause q).1 ++ ")")).map String.length
      = l.map (fun q => (clause q).1.length + 2) := by
  induction l with
  | nil => rfl
  | cons q qs ih => simp only [List.map_cons, paren_length, ih]

theorem char_eq_of_toNat_eq {c d : Char} (h : c.toNat = d.toNat) : c = d :=
  Char.ext (UInt32.ext h)

theorem utf8Bytes_ne_nil (c : Char) : utf8Bytes c ≠ [] := by
  rw [utf8Bytes]
  split
  · simp
  split
  · simp
  split <;> simp

theorem utf8Bytes_getLast_sep {c : Char} :
    (utf8Bytes c).getLast? = some sepByte ↔ c = sepChar := by
  constructor
  · intro h
    rw [utf8Bytes] at h
    split at h
    · simp only [List.getLast?_singleton, Option.some.injEq] at h
      exact char_eq_of_toNat_eq h
    · split at h
      · simp only [List.getLast?_cons_cons, List.getLast?_singleton,
          Option.some.injEq] at h
        exact absurd h (by rw [sepByte]; omega)
      · split at h <;>
        · simp only [List.getLast?_cons_cons, List.getLast?_singleton,
            Option.some.injEq] at h
          exact absurd h (by rw [sepByte]; omega)
  · intro h
    subst h
    decide

theorem fsencode_concat_getLast (l : List Char) (c : Char) :
    ((l ++ [c]).flatMap utf8Bytes).getLast? = (utf8Bytes c).getLast? := by
  rw [List.flatMap_append l [c] utf8Bytes]
  rw [show ([c].flatMap utf8Bytes) = utf8Bytes c by simp]
  exact List.getLast?_append_of_ne_nil _ (utf8Bytes_ne_nil c)

theorem fsencode_eq_nil_iff (s : String) : fsencode s = [] ↔ s.data = [] := by
  constructor
  · intro h
    cases hd : s.data with
    | nil => rfl
    | cons c l =>
      rw [fsencode, hd, List.flatMap_cons] at h
      exact absurd (List.append_eq_nil.mp h).1 (utf8Bytes_ne_nil c)
  · intro h
    rw [fsencode, h]
    rfl

theorem string_eq_empty_iff (s : String) : s = "" ↔ s.data = [] := by
  constructor
  · intro h
    rw [h]
  · intro h
    exact String.ext h

theorem fsencode_getLast_sep_iff (s : String) :
    (fsencode s).getLast? = some sepByte ↔ s.data.getLast? = some sepChar := by
  rcases List.eq_nil_or_concat s.data with h | ⟨l, c, h⟩
  · rw [fsencode, h]
    simp
  · rw [List.concat_eq_append] at h
    rw [fsencode, h, fsencode_concat_getLast, List.getLast?_concat]
    rw [utf8Bytes_getLast_sep]
    constructor
    · intro hc
      rw [hc]
    · intro hc
      injection hc

mutual

theorem countQM_clause : ∀ q : Query, wellNamed q = true →
    countQM (clause q).1 = (clause q).2.length
  | Query.AllQuery, _ => by decide
  | Query.MatchQuery column value, h => by
    have hname : countQM column.name = 0 := by simpa [wellNamed] using h
    show countQM (column.name ++ " = ?") = 1
    rw [countQM_append, hname]
    decide
  | Query.PathTreeQuery column file_blob dir_blob, h => by
    have hname : countQM column.name = 0 := by simpa [wellNamed] using h
    show countQM ("(" ++ column.name ++ " = ? OR substr(" ++ column.name
        ++ ", 1, ?) = ?)") = 3
    rw [countQM_append, countQM_append, countQM_append, countQM_append, hname]
    decide
  | Query.AndQuery subqueries, h => by
    have hl : wellNamedList subqueries = true := by simpa [wellNamed] using h
    show countQM (joinParts " AND " (clauseParts subqueries))
        = (clauseArgs subqueries).length
    rw [countQM_joinParts " AND " (by decide) (clauseParts subqueries)]
    exact countQM_clauseList subqueries hl
  | Query.OrQuery subqueries, h => by
    have hl : wellNamedList subqueries = true := by simpa [wellNamed] using h
    show countQM (joinParts " OR " (clauseParts subqueries))
        = (clauseArgs subqueries).length
    rw [countQM_joinParts " OR " (by decide) (clauseParts subqueries)]
    exact countQM_clauseList subqueries hl
  | Query.NotQuery subquery, h => by
    have hs : wellNamed subquery = true := by simpa [wellNamed] using h
    have ih := countQM_clause subquery hs
    rw [clause_not]
    by_cases hc : (clause subquery).1 = ""
    · rw [if_pos hc]
      exact ih
    · rw [if_neg hc]
      show countQM ("not (" ++ (clause subquery).1 ++ ")")
          = (clause subquery).2.length
      rw [countQM_append, countQM_append, ih]
      have h1 : countQM "not (" = 0 := by decide
      have h2 : countQM ")" = 0 := by decide
      omega

theorem countQM_clauseList : ∀ l : List Query, wellNamedList l = true →
    ((clauseParts l).map countQM).sum = (clauseArgs l).length
  | [], _ => rfl
  | q :: qs, h => by
    have hpair : wellNamed q = true ∧ wellNamedList qs = true := by
      simpa [wellNamedList, Bool.and_eq_true] using h
    have ih1 := countQM_clause q hpair.1
    have ih2 := countQM_clauseList qs hpair.2
    show ((("(" ++ (clause q).1 ++ ")") :: clauseParts qs).map countQM).sum
        = ((clause q).2 ++ clauseArgs qs).length
    simp only [List.map_cons, List.sum_cons, List.length_append, countQM_append]
    have h1 : countQM "(" = 0 := by decide
    have h2 : countQM ")" = 0 := by decide
    omega

end

/-! ## Claims -/

/-- C1 (counterexample): in the end-to-end scenario, `NotQuery` wraps the
clause `"size = ?"` of its `MatchQuery` child in a single pair of
parentheses, so the compiled clause text is not the spec's
`"((path = ? OR substr(path, 1, ?) = ?)) AND (not ((size = ?)))"`,
which shows a doubled pair around the equality. -/
theorem scenario_clause_ne_spec :
    (clause scenarioQuery).1
      ≠ "((path = ? OR substr(path, 1, ?) = ?)) AND (not ((size = ?)))" := by
  decide

/-- C1 (amended): the scenario predicate is constructed successfully and
compiles to the clause text
`"((path = ? OR substr(path, 1, ?) = ?)) AND (not (size = ?))"` — a single
pair of parentheses around the negated equality — with exactly 4 arguments
in order: the exact-path bytes of `"/sync/docs"`, the length (11) of the
directory-prefix bytes, the directory-prefix bytes, and the storage
conversion of 0. -/
theorem scenario_clause_eval :
    mkPathTreeQuery pathColumn "/sync/docs" = Except.ok syncDocsQuery
    ∧ clause scenarioQuery
        = ("((path = ? OR substr(path, 1, ?) = ?)) AND (not (size = ?))",
           [SqlValue.blob [47, 115, 121, 110, 99, 47, 100, 111, 99, 115],
            SqlValue.int 11,
            SqlValue.blob [47, 115, 121, 110, 99, 47, 100, 111, 99, 115, 47],
            SqlValue.int 0]) :=
  ⟨rfl, by decide⟩

/-- C2 (counterexample): for the input path `"/a/b/"`, whose encoding already
ends with the separator byte, `os.path.join(file_blob, b"")` does not append
another separator: `dir_blob` equals `file_blob`, not
`file_blob ++ [sepByte]`, and the compiled argument list differs from the
one the claim predicts. -/
theorem pathTree_trailing_sep_counterexample :
    mkPathTreeQuery pathColumn "/a/b/"
      = Except.ok
          (Query.PathTreeQuery pathColumn (fsencode "/a/b/") (fsencode "/a/b/"))
    ∧ fsencode "/a/b/" ≠ fsencode "/a/b/" ++ [sepByte]
    ∧ (clause (Query.PathTreeQuery pathColumn (fsencode "/a/b/")
          (fsencode "/a/b/"))).2
        ≠ [SqlValue.blob (fsencode "/a/b/"),
           SqlValue.int (Int.ofNat (fsencode "/a/b/" ++ [sepByte]).length),
           SqlValue.blob (fsencode "/a/b/" ++ [sepByte])] := by
  refine ⟨rfl, by decide, by decide⟩

/-- C2 (amended): every successfully constructed `PathTreeQuery` compiles to
clause text `"(<column.name> = ? OR substr(<column.name>, 1, ?) = ?)"` with
arguments `[file_bytes, length(dir_bytes), dir_bytes]`, where `dir_bytes`
is `file_bytes` with the separator appended when `file_bytes` is non-empty
and does not already end with the separator, and equals `file_bytes`
otherwise; the directory-prefix argument makes `"/a/b/c"` but not the
sibling `"/a/bc"` a byte-prefix match for the subtree rooted at `"/a/b"`. -/
theorem pathTree_clause_spec (column : Column) (path : String) (q : Query)
    (h : mkPathTreeQuery column path = Except.ok q) :
    clause q
      = ("(" ++ column.name ++ " = ? OR substr(" ++ column.name
           ++ ", 1, ?) = ?)",
         [SqlValue.blob (fsencode path),
          SqlValue.int (Int.ofNat (osPathJoinEmpty (fsencode path)).length),
          SqlValue.blob (osPathJoinEmpty (fsencode path))])
    ∧ ((fsencode path ≠ [] ∧ (fsencode path).getLast? ≠ some sepByte) →
        osPathJoinEmpty (fsencode path) = fsencode path ++ [sepByte])
    ∧ ((fsencode path = [] ∨ (fsencode path).getLast? = some sepByte) →
        osPathJoinEmpty (fsencode path) = fsencode path)
    ∧ (osPathJoinEmpty (fsencode "/a/b")).isPrefixOf (fsencode "/a/b/c") = true
    ∧ (osPathJoinEmpty (fsencode "/a/b")).isPrefixOf (fsencode "/a/bc")
        = false := by
  rw [mkPathTreeQuery] at h
  by_cases hk : column.kind ≠ StorageKind.path
  · rw [if_pos hk] at h
    exact absurd h (by simp)
  · rw [if_neg hk] at h
    injection h with h2
    rw [← h2]
    refine ⟨rfl, ?_, ?_, by decide, by decide⟩
    · rintro ⟨h1, hlast⟩
      rw [osPathJoinEmpty, if_neg (not_or.mpr ⟨h1, hlast⟩)]
    · intro hor
      rw [osPathJoinEmpty, if_pos hor]

/-- C2 (witness): the amended theorem applied to the successful construction
of `PathTreeQuery(path, "/sync/docs")`. -/
theorem pathTree_clause_spec_witness :
    clause syncDocsQuery
      = ("(path = ? OR substr(path, 1, ?) = ?)",
         [SqlValue.blob [47, 115, 121, 110, 99, 47, 100, 111, 99, 115],
          SqlValue.int 11,
          SqlValue.blob [47, 115, 121, 110, 99, 47, 100, 111, 99, 115, 47]]) :=
  ((pathTree_clause_spec pathColumn "/sync/docs" syncDocsQuery rfl).1).trans
    (by decide)

/-- C3: for every well-formed predicate tree whose column names contain no
placeholder character, the number of placeholder characters in the compiled
clause text equals the length of the compiled argument list. -/
theorem placeholder_count_eq_args_length (q : Query) (h : wellNamed q = true) :
    countQM (clause q).1 = (clause q).2.length :=
  countQM_clause q h

/-- C3 (witness): the placeholder-count invariant evaluated on the
end-to-end scenario predicate. -/
theorem placeholder_count_eq_args_length_witness :
    wellNamed scenarioQuery = true
    ∧ countQM (clause scenarioQuery).1 = (clause scenarioQuery).2.length :=
  ⟨by decide, placeholder_count_eq_args_length scenarioQuery (by decide)⟩

/-- C4: constructing a `PathTreeQuery` succeeds exactly when the column's
type is the path type; when it fails it fails at construction time with the
`ValueError` message, and `clause` is total on every tree. -/
theorem pathTree_construction_iff :
    (∀ (column : Column) (path : String),
        (∃ q, mkPathTreeQuery column path = Except.ok q)
          ↔ column.kind = StorageKind.path)
    ∧ (∀ (column : Column) (path : String),
        column.kind ≠ StorageKind.path →
          mkPathTreeQuery column path
            = Except.error "Only accepts columns with type SqlPath")
    ∧ (∀ q : Query, ∃ clause_text args, clause q = (clause_text, args)) := by
  refine ⟨?_, ?_, ?_⟩
  · intro column path
    constructor
    · rintro ⟨q, hq⟩
      by_contra hk
      rw [mkPathTreeQuery, if_pos hk] at hq
      exact Except.noConfusion hq
    · intro hk
      exact ⟨_, by rw [mkPathTreeQuery, if_neg (by simp [hk])]⟩
  · intro column path hk
    rw [mkPathTreeQuery, if_pos hk]
  · intro q
    exact ⟨(clause q).1, (clause q).2, rfl⟩

/-- C4 (witness): construction succeeds on the path-typed column and fails
with the `ValueError` message on the scalar-typed column. -/
theorem pathTree_construction_iff_witness :
    mkPathTreeQuery pathColumn "/sync/docs" = Except.ok syncDocsQuery
    ∧ mkPathTreeQuery sizeColumn "/sync/docs"
        = Except.error "Only accepts columns with type SqlPath" :=
  ⟨rfl, pathTree_construction_iff.2.1 sizeColumn "/sync/docs" (by decide)⟩

/-- C5: an `AndQuery` (resp. `OrQuery`) with `n` children compiles to the
join of the `n` parenthesized child clauses with `" AND "` (resp. `" OR "`),
inserting the padded joiner exactly `n − 1` times (witnessed by the length
equation), and its argument list is the concatenation of the children's
argument lists in child order. -/
theorem collection_joiner_spec (subqueries : List Query) :
    clause (Query.AndQuery subqueries)
        = (joinParts " AND "
             (subqueries.map (fun q => "(" ++ (clause q).1 ++ ")")),
           (subqueries.map (fun q => (clause q).2)).flatten)
    ∧ clause (Query.OrQuery subqueries)
        = (joinParts " OR "
             (subqueries.map (fun q => "(" ++ (clause q).1 ++ ")")),
           (subqueries.map (fun q => (clause q).2)).flatten)
    ∧ (subqueries.map (fun q => "(" ++ (clause q).1 ++ ")")).length
        = subqueries.length
    ∧ (clause (Query.AndQuery subqueries)).1.length
        = (subqueries.map (fun q => (clause q).1.length + 2)).sum
          + " AND ".length * (subqueries.length - 1)
    ∧ (clause (Query.OrQuery subqueries)).1.length
        = (subqueries.map (fun q => (clause q).1.length + 2)).sum
          + " OR ".length * (subqueries.length - 1) := by
  refine ⟨?_, ?_, by simp, ?_, ?_⟩
  · rw [clause_and, clauseParts_eq_map, clauseArgs_eq_flatten]
  · rw [clause_or, clauseParts_eq_map, clauseArgs_eq_flatten]
  · rw [clause_and]
    show (joinParts " AND " (clauseParts subqueries)).length = _
    rw [joinParts_length, clauseParts_eq_map, map_paren_length, List.length_map]
  · rw [clause_or]
    show (joinParts " OR " (clauseParts subqueries)).length = _
    rw [joinParts_length, clauseParts_eq_map, map_paren_length, List.length_map]

/-- C6: `NotQuery` wraps a non-empty child clause as `"not (<clause>)"` and
forwards the arguments unchanged; for an empty child clause it forwards the
empty clause and the child's arguments unchanged; in particular
`NotQuery(AllQuery())` compiles to `"not (TRUE)"` with no arguments. -/
theorem notQuery_clause_spec (q : Query) (c : String) (args : List SqlValue)
    (h : clause q = (c, args)) :
    (c ≠ "" → clause (Query.NotQuery q) = ("not (" ++ c ++ ")", args))
    ∧ (c = "" → clause (Query.NotQuery q) = (c, args))
    ∧ clause (Query.NotQuery Query.AllQuery) = ("not (TRUE)", []) := by
  refine ⟨?_, ?_, rfl⟩
  · intro hc
    rw [clause_not, h]
    simp [hc]
  · intro hc
    rw [clause_not, h]
    simp [hc]

/-- C6 (witness): the negation rule evaluated on a non-empty child clause
(`MatchQuery`) and on an empty child clause (`AndQuery` with no children). -/
theorem notQuery_clause_spec_witness :
    clause (Query.NotQuery (Query.MatchQuery sizeColumn (PyValue.int 0)))
        = ("not (size = ?)", [SqlValue.int 0])
    ∧ clause (Query.NotQuery (Query.AndQuery [])) = ("", []) :=
  ⟨(notQuery_clause_spec (Query.MatchQuery sizeColumn (PyValue.int 0))
      "size = ?" [SqlValue.int 0] rfl).1 (by decide),
   (notQuery_clause_spec (Query.AndQuery []) "" [] rfl).2.1 rfl⟩

/-- C7: `AndQuery` and `OrQuery` with zero children are constructible and
compile to the empty clause text with an empty argument list. -/
theorem empty_collection_clause :
    clause (Query.AndQuery []) = ("", [])
    ∧ clause (Query.OrQuery []) = ("", []) :=
  ⟨rfl, rfl⟩

/-- C8: `MatchQuery(column, value)` compiles to the clause text
`"<column.name> = ?"`, which contains exactly one placeholder when the
column name contains none, with argument list exactly
`[column.py_to_sql(value)]`. -/
theorem matchQuery_clause_spec (column : Column) (value : PyValue)
    (h : countQM column.name = 0) :
    clause (Query.MatchQuery column value)
      = (column.name ++ " = ?", [column.py_to_sql value])
    ∧ countQM (clause (Query.MatchQuery column value)).1 = 1
    ∧ (clause (Query.MatchQuery column value)).2.length = 1 := by
  refine ⟨rfl, ?_, rfl⟩
  show countQM (column.name ++ " = ?") = 1
  rw [countQM_append, h]
  decide

/-- C8 (witness): the match rule evaluated on the `size` column and the
value 7. -/
theorem matchQuery_clause_spec_witness :
    clause (Query.MatchQuery sizeColumn (PyValue.int 7))
        = ("size = ?", [SqlValue.int 7])
    ∧ countQM (clause (Query.MatchQuery sizeColumn (PyValue.int 7))).1 = 1 :=
  ⟨((matchQuery_clause_spec sizeColumn (PyValue.int 7) (by decide)).1).trans
      (by decide),
   (matchQuery_clause_spec sizeColumn (PyValue.int 7) (by decide)).2.1⟩

/-- C9: compilation is deterministic and effect-free: it depends only on the
immutable structure of the tree, so compiling a structurally identical deep
copy of a predicate tree yields exactly the same clause text and argument
list, and the tree itself is unchanged. -/
theorem clause_deterministic (q : Query) :
    copyQuery q = q ∧ clause (copyQuery q) = clause q :=
  ⟨copyQuery_eq q, congrArg clause (copyQuery_eq q)⟩

/-- C10: for every successfully constructed `PathTreeQuery`, `file_blob` is
a byte-prefix of `dir_blob`; `dir_blob` appends exactly one separator byte
when the input path does not already end with the separator, and equals
`file_blob` exactly when the input path is empty or already ends with the
separator. -/
theorem pathTree_blob_invariant (column : Column) (path : String) (q : Query)
    (h : mkPathTreeQuery column path = Except.ok q) :
    ∃ file_blob dir_blob,
      q = Query.PathTreeQuery column file_blob dir_blob
      ∧ file_blob <+: dir_blob
      ∧ ((path = "" ∨ path.data.getLast? = some sepChar) →
          dir_blob = file_blob)
      ∧ ((path ≠ "" ∧ path.data.getLast? ≠ some sepChar) →
          dir_blob = file_blob ++ [sepByte]) := by
  rw [mkPathTreeQuery] at h
  by_cases hk : column.kind ≠ StorageKind.path
  · rw [if_pos hk] at h
    exact absurd h (by simp)
  · rw [if_neg hk] at h
    injection h with h2
    refine ⟨fsencode path, osPathJoinEmpty (fsencode path), h2.symm, ?_, ?_, ?_⟩
    · rw [osPathJoinEmpty]
      split
      · exact List.prefix_refl _
      · exact List.prefix_append _ _
    · rintro (hp | hp)
      · have he : fsencode path = [] :=
          (fsencode_eq_nil_iff path).mpr ((string_eq_empty_iff path).mp hp)
        rw [osPathJoinEmpty, if_pos (Or.inl he)]
      · have hl : (fsencode path).getLast? = some sepByte :=
          (fsencode_getLast_sep_iff path).mpr hp
        rw [osPathJoinEmpty, if_pos (Or.inr hl)]
    · rintro ⟨h1, hlast⟩
      have hne : fsencode path ≠ [] := fun he =>
        h1 ((string_eq_empty_iff path).mpr ((fsencode_eq_nil_iff path).mp he))
      have hnl : (fsencode path).getLast? ≠ some sepByte := fun hl =>
        hlast ((fsencode_getLast_sep_iff path).mp hl)
      rw [osPathJoinEmpty, if_neg (not_or.mpr ⟨hne, hnl⟩)]

/-- C10 (witness): the blob invariant applied to the construction of
`PathTreeQuery(path, "/sync/docs")`, whose path does not end with the
separator, so the directory blob appends exactly one separator byte. -/
theorem pathTree_blob_invariant_witness :
    syncDocsQuery
      = Query.PathTreeQuery pathColumn (fsencode "/sync/docs")
          (osPathJoinEmpty (fsencode "/sync/docs"))
    ∧ fsencode "/sync/docs" <+: osPathJoinEmpty (fsencode "/sync/docs")
    ∧ osPathJoinEmpty (fsencode "/sync/docs")
        = fsencode "/sync/docs" ++ [sepByte] := by
  obtain ⟨fb, db, h1, h2, _, h4⟩ :=
    pathTree_blob_invariant pathColumn "/sync/docs" syncDocsQuery rfl
  rw [syncDocsQuery] at h1
  injection h1 with hcol hfb hdb
  subst hfb
  subst hdb
  exact ⟨rfl, h2, h4 (by decide)⟩

end MaestralQuery
